import Mathlib

/-!
Verification development for the ZTBF data pipeline
(security-event ingestion, normalization, enrichment and tiered storage).

Each definition is a shallow embedding of the corresponding Python
function of the repository; the source file and symbol are named in the
doc comment.  Machine integers are modelled as Nat/Int, fallible code as
Option/Except, and dictionaries as structures with Option fields
(a missing key is `none`).
-/

namespace ZTBF

/-! ### Timestamps and calendar arithmetic

The pipeline parses naive ISO-8601 timestamps (UTC) into `datetime`
values and reads their `hour`, `weekday()`, `isocalendar()[1]` and
`month`.  A parsed datetime is embedded as the record of its fields. -/

/-- A parsed (naive, UTC) datetime, as produced by
`EventNormalizer._parse_timestamp` (processing/normalizer.py). -/
structure Timestamp where
  year : Nat
  month : Nat
  day : Nat
  hour : Nat
  minute : Nat
  second : Nat
  usec : Nat
  deriving Repr, DecidableEq

/-- Gregorian leap-year test (Python `calendar`/`datetime` rule). -/
def isLeap (y : Nat) : Bool := y % 4 = 0 && (y % 100 ≠ 0 || y % 400 = 0)

/-- Number of days in a month, as validated by `datetime`. -/
def daysInMonth (y m : Nat) : Nat :=
  if m = 2 then (if isLeap y then 29 else 28)
  else if m = 4 || m = 6 || m = 9 || m = 11 then 30
  else 31

/-- Days since 1970-01-01 of a civil date (standard days-from-civil
computation); used to embed Python `datetime.weekday()`. -/
def daysFromCivil (y m d : Int) : Int :=
  let y2 : Int := if m ≤ 2 then y - 1 else y
  let era : Int := (if 0 ≤ y2 then y2 else y2 - 399) / 400
  let yoe : Int := y2 - era * 400
  let mp : Int := (m + 9) % 12
  let doy : Int := (153 * mp + 2) / 5 + d - 1
  let doe : Int := yoe * 365 + yoe / 4 - yoe / 100 + doy
  era * 146097 + doe - 719468

/-- Python `datetime.weekday()`: Monday = 0 .. Sunday = 6.
1970-01-01 was a Thursday (weekday 3). -/
def Timestamp.weekday (t : Timestamp) : Nat :=
  (((daysFromCivil t.year t.month t.day) + 3) % 7).toNat

/-- Cumulative day count before a given month in a non-leap year. -/
def monthOffset : Nat → Nat
  | 1 => 0 | 2 => 31 | 3 => 59 | 4 => 90 | 5 => 120 | 6 => 151
  | 7 => 181 | 8 => 212 | 9 => 243 | 10 => 273 | 11 => 304 | _ => 334

/-- Ordinal day of the year (1-based), as used by `isocalendar`. -/
def Timestamp.ordinalDay (t : Timestamp) : Int :=
  (monthOffset t.month + t.day : Int) +
    (if 2 < t.month && isLeap t.year then 1 else 0)

/-- Helper for the ISO week rule: weekday index of 31 December. -/
def isoP (y : Int) : Int := (y + y / 4 - y / 100 + y / 400) % 7

/-- Number of ISO weeks in a year (52 or 53). -/
def isoWeeksInYear (y : Int) : Int :=
  if isoP y = 4 || isoP (y - 1) = 3 then 53 else 52

/-- ISO week number, embedding Python `datetime.isocalendar()[1]`. -/
def Timestamp.isoWeek (t : Timestamp) : Nat :=
  let wd : Int := (t.weekday : Int) + 1
  let w : Int := (t.ordinalDay - wd + 10) / 7
  (if w < 1 then isoWeeksInYear ((t.year : Int) - 1)
   else if isoWeeksInYear t.year < w then 1
   else w).toNat

/-! ### Timestamp parsing

`EventNormalizer._parse_timestamp` (processing/normalizer.py lines
385-410): a falsy (missing or empty) input gives `None`; a trailing `Z`
is stripped; then `datetime.fromisoformat` is tried, falling back to
`strptime("%Y-%m-%dT%H:%M:%S")`; any parse failure is caught and `None`
is returned (never an exception).  The embedding below covers the naive
ISO shapes the pipeline's sources emit: `YYYY-MM-DD`, optionally
followed by a one-character separator, `HH:MM:SS` and an optional
fractional-second part; field ranges are validated as `datetime` does.
Timezone-offset suffixes are not modelled (none of the pipeline's
sources emit them); such strings parse to `none`. -/

/-- Numeric value of a list of decimal digit characters. -/
def digitsToNat (cs : List Char) : Nat :=
  cs.foldl (fun a c => 10 * a + (c.toNat - '0'.toNat)) 0

/-- Parse the time-of-day part `HH:MM:SS[.f+]` of an ISO string. -/
def parseTimeOfDay (cs : List Char) : Option (Nat × Nat × Nat × Nat) :=
  match cs with
  | h1 :: h2 :: ':' :: n1 :: n2 :: ':' :: s1 :: s2 :: rest =>
    if [h1, h2, n1, n2, s1, s2].all Char.isDigit then
      let h := digitsToNat [h1, h2]
      let n := digitsToNat [n1, n2]
      let s := digitsToNat [s1, s2]
      if h ≤ 23 && n ≤ 59 && s ≤ 59 then
        match rest with
        | [] => some (h, n, s, 0)
        | '.' :: fs =>
          if fs ≠ [] && fs.length ≤ 6 && fs.all Char.isDigit then
            some (h, n, s, digitsToNat fs * 10 ^ (6 - fs.length))
          else none
        | _ => none
      else none
    else none
  | _ => none

/-- Parse a naive ISO-8601 date or datetime (after `Z`-stripping). -/
def parseIsoChars (cs : List Char) : Option Timestamp :=
  match cs with
  | y1 :: y2 :: y3 :: y4 :: '-' :: m1 :: m2 :: '-' :: d1 :: d2 :: rest =>
    if [y1, y2, y3, y4, m1, m2, d1, d2].all Char.isDigit then
      let y := digitsToNat [y1, y2, y3, y4]
      let mo := digitsToNat [m1, m2]
      let d := digitsToNat [d1, d2]
      if 1 ≤ mo && mo ≤ 12 && 1 ≤ d && d ≤ daysInMonth y mo && 1 ≤ y then
        match rest with
        | [] => some ⟨y, mo, d, 0, 0, 0, 0⟩
        | _sep :: timePart =>
          match parseTimeOfDay timePart with
          | some (h, n, s, us) => some ⟨y, mo, d, h, n, s, us⟩
          | none => none
      else none
    else none
  | _ => none

/-- Strip one trailing `Z` when present (the `endswith('Z')` branch of
`_parse_timestamp`). -/
def stripTrailingZ (cs : List Char) : List Char :=
  match cs.getLast? with
  | some 'Z' => cs.dropLast
  | _ => cs

/-- Embedding of `EventNormalizer._parse_timestamp`: falsy input and
unparseable strings give `none` (the Python code catches every parse
error and returns `None`). -/
def parseTimestamp (s : Option String) : Option Timestamp :=
  match s with
  | none => none
  | some str =>
    if str = "" then none
    else parseIsoChars (stripTrailingZ str.data)

/-! ### Temporal features

`EventNormalizer._extract_temporal_features` (processing/normalizer.py
lines 412-434). -/

/-- The `temporal` block of the unified schema
(schemas/unified_schema.py `TemporalContext`). -/
structure TemporalContext where
  hour_of_day : Nat
  day_of_week : Nat
  is_weekend : Bool
  is_business_hours : Bool
  week_of_year : Nat
  month : Nat
  deriving Repr, DecidableEq

/-- Embedding of `EventNormalizer._extract_temporal_features`. -/
def extractTemporalFeatures (t : Timestamp) : TemporalContext :=
  let hour := t.hour
  let day_of_week := t.weekday
  { hour_of_day := hour
    day_of_week := day_of_week
    is_weekend := decide (5 ≤ day_of_week)
    is_business_hours := decide (9 ≤ hour ∧ hour < 17)
    week_of_year := t.isoWeek
    month := t.month }

/-! ### Unified schema (schemas/unified_schema.py)

Dictionaries are embedded as structures; a missing key is `none`.
Python truthiness on strings (`if not s`, `a or b`) is embedded by the
helpers below. -/

/-- Python string truthiness: `None` and the empty string are falsy. -/
def optTruthy (o : Option String) : Option String :=
  match o with
  | some "" => none
  | x => x

/-- Python `a or b` on optional strings. -/
def pyOr (a b : Option String) : Option String :=
  match optTruthy a with
  | none => b
  | some s => some s

/-- Python `str(x)` on an optional integer (`str(None)` is `"None"`). -/
def pyStrInt (o : Option Int) : String :=
  match o with
  | none => "None"
  | some n => toString n

/-- Python f-string rendering of an optional string. -/
def pyStrOpt (o : Option String) : String :=
  match o with
  | none => "None"
  | some s => s

/-- `EntityType` enum of the unified schema. -/
inductive EntityType where
  | user | service | device | unknown
  deriving Repr, DecidableEq

/-- `EventType` enum of the unified schema. -/
inductive EventType where
  | authentication | authorization | api_call | cloud_api
  | data_access | network_connection | admin_action
  deriving Repr, DecidableEq

/-- `LocationContext` of the unified schema. -/
structure LocationContext where
  city : Option String := none
  country : Option String := none
  country_code : Option String := none
  latitude : Option Rat := none
  longitude : Option Rat := none
  timezone : Option String := none
  deriving Repr, DecidableEq

/-- `DeviceFingerprint` of the unified schema. -/
structure DeviceFingerprint where
  device_id : Option String := none
  device_type : Option String := none
  os : Option String := none
  os_version : Option String := none
  browser : Option String := none
  browser_version : Option String := none
  is_mobile : Bool := false
  is_bot : Bool := false
  deriving Repr, DecidableEq

/-- `ResourceContext` of the unified schema
(`sensitivity_level` defaults to 1). -/
structure ResourceContext where
  type : String
  id : Option String := none
  name : Option String := none
  sensitivity_level : Nat := 1
  service : Option String := none
  endpoint : Option String := none
  method : Option String := none
  arn : Option String := none
  deriving Repr, DecidableEq

/-- `EntityMetadata` of the unified schema. -/
structure EntityMetadata where
  department : Option String := none
  role : Option String := none
  job_title : Option String := none
  manager : Option String := none
  is_admin : Bool := false
  is_privileged : Bool := false
  deriving Repr, DecidableEq

/-- `PerformanceMetrics` of the unified schema. -/
structure PerformanceMetrics where
  latency_ms : Option Int := none
  request_size_bytes : Option Int := none
  response_size_bytes : Option Int := none
  deriving Repr, DecidableEq

/-- The normalized (unified-schema) event dictionary produced by
`EventNormalizer.normalize` (processing/normalizer.py).  Values of the
`source_specific` map that are nested dictionaries in Python are
opaque to every claim and are embedded as `none`. -/
structure NormalizedEvent where
  entity_id : Option String
  entity_type : EntityType
  session_id : Option String
  event_type : EventType
  event_subtype : Option String
  timestamp : Option Timestamp
  success : Bool
  error_code : Option String
  error_message : Option String
  source_ip : Option String
  user_agent : Option String
  location : Option LocationContext
  device : Option DeviceFingerprint
  resource : ResourceContext
  entity_metadata : Option EntityMetadata := none
  temporal : Option TemporalContext
  performance : Option PerformanceMetrics := none
  risk_level : Option String
  risk_factors : Option (List String)
  source_system : String
  ingestion_timestamp : Option Timestamp
  processing_timestamp : Option Timestamp := none
  raw_event_id : Option String
  pipeline_version : String
  source_specific : List (String × Option String)
  source_ip_anonymized : Option String := none
  deriving Repr, DecidableEq

/-! ### Raw ingress events

A raw event is one Python dict; the union of the keys read by the three
source mappers is embedded as one structure of optional fields. -/

/-- Azure AD `status` sub-dictionary. -/
structure AzStatus where
  errorCode : Option Int := none
  failureReason : Option String := none
  deriving Repr, DecidableEq

/-- Azure AD `geoCoordinates` sub-dictionary. -/
structure AzGeo where
  latitude : Option Rat := none
  longitude : Option Rat := none
  deriving Repr, DecidableEq

/-- Azure AD `location` sub-dictionary. -/
structure AzLocation where
  city : Option String := none
  countryOrRegion : Option String := none
  geoCoordinates : Option AzGeo := none
  deriving Repr, DecidableEq

/-- Azure AD `deviceDetail` sub-dictionary. -/
structure AzDevice where
  deviceId : Option String := none
  operatingSystem : Option String := none
  browser : Option String := none
  deriving Repr, DecidableEq

/-- CloudTrail `userIdentity` sub-dictionary. -/
structure CTUserIdentity where
  type : Option String := none
  userName : Option String := none
  principalId : Option String := none
  arn : Option String := none
  deriving Repr, DecidableEq

/-- One entry of the CloudTrail `resources` list. -/
structure CTResource where
  ARN : Option String := none
  deriving Repr, DecidableEq

/-- A raw ingress event (one Python dict); every key read by any of the
three mappers is a field, `none` when the key is absent. -/
structure RawEvent where
  source_type : Option String := none
  ingestion_timestamp : Option String := none
  id : Option String := none
  createdDateTime : Option String := none
  userPrincipalName : Option String := none
  userId : Option String := none
  appId : Option String := none
  appDisplayName : Option String := none
  ipAddress : Option String := none
  clientAppUsed : Option String := none
  correlationId : Option String := none
  status : Option AzStatus := none
  location : Option AzLocation := none
  deviceDetail : Option AzDevice := none
  riskLevelDuringSignIn : Option String := none
  riskDetail : Option String := none
  riskState : Option String := none
  riskLevelAggregated : Option String := none
  userIdentity : Option CTUserIdentity := none
  eventTime : Option String := none
  eventSource : Option String := none
  eventName : Option String := none
  resources : List CTResource := []
  errorCode : Option String := none
  errorMessage : Option String := none
  sourceIPAddress : Option String := none
  userAgent : Option String := none
  requestID : Option String := none
  eventID : Option String := none
  eventVersion : Option String := none
  awsRegion : Option String := none
  recipientAccountId : Option String := none
  eventType : Option String := none
  timestamp : Option String := none
  request_id : Option String := none
  user_id : Option String := none
  method : Option String := none
  endpoint : Option String := none
  status_code : Option Int := none
  latency_ms : Option Int := none
  request_size_bytes : Option Int := none
  response_size_bytes : Option Int := none
  source_ip : Option String := none
  user_agent : Option String := none
  api_key_id : Option String := none
  deriving Repr, DecidableEq

/-! ### Normalizer (processing/normalizer.py) -/

/-- Errors of `EventNormalizer.normalize` (`NormalizationError`). -/
inductive NormalizationFailure where
  | missingSourceType
  | unknownSource (st : String)
  deriving Repr, DecidableEq

/-- Embedding of `EventNormalizer.normalize_azure_ad`
(processing/normalizer.py lines 88-179). -/
def normalizeAzureAd (e : RawEvent) : NormalizedEvent :=
  let location : Option LocationContext :=
    match e.location with
    | none => none
    | some l =>
      some { city := l.city
             country := l.countryOrRegion
             latitude := l.geoCoordinates.bind (·.latitude)
             longitude := l.geoCoordinates.bind (·.longitude) }
  let device : Option DeviceFingerprint :=
    match e.deviceDetail with
    | none => none
    | some d =>
      let osl := (d.operatingSystem.getD "").toLower
      some { device_id := d.deviceId
             os := d.operatingSystem
             browser := d.browser
             is_mobile := osl = "ios" || osl = "android" }
  let resource : ResourceContext :=
    { type := "application", id := e.appId, name := e.appDisplayName }
  let errCode : Option Int := e.status.bind (·.errorCode)
  let success : Bool := errCode = some 0 || errCode = none
  let timestamp := parseTimestamp e.createdDateTime
  { entity_id := pyOr e.userPrincipalName e.userId
    entity_type := .user
    session_id := e.correlationId
    event_type := .authentication
    event_subtype := some "sign_in"
    timestamp := timestamp
    success := success
    error_code := if success then none else some (pyStrInt errCode)
    error_message := if success then none else e.status.bind (·.failureReason)
    source_ip := e.ipAddress
    user_agent := e.clientAppUsed
    location := location
    device := device
    resource := resource
    temporal := timestamp.map extractTemporalFeatures
    risk_level := e.riskLevelDuringSignIn
    risk_factors := (optTruthy e.riskDetail).map (fun d => [d])
    source_system := "azure_ad"
    ingestion_timestamp := parseTimestamp e.ingestion_timestamp
    raw_event_id := e.id
    pipeline_version := "1.0.0"
    source_specific :=
      [("correlationId", e.correlationId), ("riskState", e.riskState),
       ("riskLevelAggregated", e.riskLevelAggregated)] }

/-- Embedding of `EventNormalizer._extract_cloudtrail_entity_id`
(processing/normalizer.py lines 361-372). -/
def extractCloudtrailEntityId (ui : CTUserIdentity) : String :=
  match ui.userName with
  | some u => u
  | none =>
    match ui.principalId with
    | some p => p
    | none =>
      match ui.arn with
      | some a =>
        let parts := a.splitOn "/"
        if 1 < parts.length then parts.getLast! else a
      | none => "unknown"

/-- Embedding of `EventNormalizer._determine_entity_type`
(processing/normalizer.py lines 374-383). -/
def determineEntityType (ui : CTUserIdentity) : EntityType :=
  let t := (ui.type.getD "").toLower
  if t = "assumedrole" || t = "awsservice" || t = "federated" then .service
  else if t = "iamuser" || t = "root" then .user
  else .unknown

/-- Embedding of `EventNormalizer.normalize_cloudtrail`
(processing/normalizer.py lines 183-268). -/
def normalizeCloudtrail (e : RawEvent) : NormalizedEvent :=
  let ui : CTUserIdentity := e.userIdentity.getD {}
  let service := (e.eventSource.getD "").replace ".amazonaws.com" ""
  let resource : ResourceContext :=
    { type := "cloud_resource"
      service := some service
      method := e.eventName
      name := e.eventName
      id := match e.resources with
            | [] => none
            | r :: _ => r.ARN }
  let success : Bool := e.errorCode = none
  let timestamp := parseTimestamp e.eventTime
  { entity_id := some (extractCloudtrailEntityId ui)
    entity_type := determineEntityType ui
    session_id := e.requestID
    event_type := .cloud_api
    event_subtype := e.eventName
    timestamp := timestamp
    success := success
    error_code := e.errorCode
    error_message := e.errorMessage
    source_ip := e.sourceIPAddress
    user_agent := e.userAgent
    location := none
    device := none
    resource := resource
    temporal := timestamp.map extractTemporalFeatures
    risk_level := none
    risk_factors := none
    source_system := "cloudtrail"
    ingestion_timestamp := parseTimestamp e.ingestion_timestamp
    raw_event_id := e.eventID
    pipeline_version := "1.0.0"
    source_specific :=
      [("eventVersion", e.eventVersion), ("awsRegion", e.awsRegion),
       ("accountId", e.recipientAccountId), ("eventType", e.eventType),
       ("userIdentity", none), ("requestParameters", none),
       ("responseElements", none)] }

/-- Embedding of `EventNormalizer.normalize_api_gateway`
(processing/normalizer.py lines 272-357). -/
def normalizeApiGateway (e : RawEvent) : NormalizedEvent :=
  let uid := e.user_id.getD ""
  let resource : ResourceContext :=
    { type := "api_endpoint"
      endpoint := e.endpoint
      method := e.method
      name := some (pyStrOpt e.method ++ " " ++ pyStrOpt e.endpoint) }
  let statusCode : Int := e.status_code.getD 0
  let success : Bool := 200 ≤ statusCode && statusCode < 300
  let timestamp := parseTimestamp e.timestamp
  { entity_id := some uid
    entity_type := if uid.contains '@' then .user else .service
    session_id := e.request_id
    event_type := .api_call
    event_subtype := e.method
    timestamp := timestamp
    success := success
    error_code := if success then none else some (toString statusCode)
    error_message := none
    source_ip := e.source_ip
    user_agent := e.user_agent
    location := none
    device := none
    resource := resource
    temporal := timestamp.map extractTemporalFeatures
    performance := some { latency_ms := e.latency_ms
                          request_size_bytes := e.request_size_bytes
                          response_size_bytes := e.response_size_bytes }
    risk_level := none
    risk_factors := none
    source_system := "api_gateway"
    ingestion_timestamp := parseTimestamp e.ingestion_timestamp
    raw_event_id := e.request_id
    pipeline_version := "1.0.0"
    source_specific :=
      [("api_key_id", e.api_key_id),
       ("status_code", some (toString statusCode))] }

/-- Embedding of `EventNormalizer.normalize` (processing/normalizer.py
lines 49-84): dispatch on the `source_type` tag, then stamp
`processing_timestamp` (the `now` argument embeds
`datetime.utcnow()`). -/
def normalize (now : Timestamp) (raw : RawEvent) :
    Except NormalizationFailure NormalizedEvent :=
  match optTruthy raw.source_type with
  | none => .error .missingSourceType
  | some st =>
    if st = "azure_ad" then
      .ok { normalizeAzureAd raw with processing_timestamp := some now }
    else if st = "cloudtrail" then
      .ok { normalizeCloudtrail raw with processing_timestamp := some now }
    else if st = "api_gateway" then
      .ok { normalizeApiGateway raw with processing_timestamp := some now }
    else .error (.unknownSource st)

/-! ### Enricher (processing/enricher.py)

`EventEnricher.enrich` (lines 58-107) applies five steps inside one
`try`; the `except` returns the original event.  The geo lookup
(`geoip_lookup`) and the entity-metadata lookup (`get_entity_metadata`)
catch their own exceptions and return `None`, so they are embedded as
`Option`-valued oracles.  The helpers `parse_user_agent`,
`classify_resource_sensitivity` and `_anonymize_pii` are called by
`enrich` but are absent from the repository's enricher.py (the file is
truncated; fix_issues.py notes the missing methods), so they are
modelled from the spec as fallible oracles. -/

/-- `EnricherConfig` (processing/enricher.py lines 15-22). -/
structure EnricherConfig where
  enable_geoip : Bool := true
  enable_entity_metadata : Bool := true
  enable_device_fingerprint : Bool := true
  enable_resource_classification : Bool := true
  deriving Repr, DecidableEq

/-- The five enrichment steps as oracles.  `geoipLookup` and
`getEntityMetadata` embed the repository's helpers, which catch their
own exceptions and return `None`.  Modelled from the spec:
`parse_user_agent`, `classify_resource_sensitivity` and
`_anonymize_pii` are missing from enricher.py; §4.3/§7 of the spec let
any enrichment step fail transiently (`EnrichmentError`), so they are
embedded as `Except`-valued oracles whose error escapes to `enrich`. -/
structure EnrichSteps where
  geoipLookup : String → Option LocationContext
  getEntityMetadata : String → Option EntityMetadata
  parseUserAgent : String → Except Unit (Option DeviceFingerprint)
  classifySensitivity : ResourceContext → Except Unit Nat
  anonymizePii : NormalizedEvent → Except Unit NormalizedEvent

/-- Step 1 of `enrich`: geo lookup (lines 71-76).  `geoip_lookup`
catches its own exceptions; a `none` result skips only this aspect. -/
def stepGeo (cfg : EnricherConfig) (steps : EnrichSteps)
    (ev : NormalizedEvent) : NormalizedEvent :=
  if cfg.enable_geoip then
    match optTruthy ev.source_ip with
    | some ip =>
      if ev.location = none then
        match steps.geoipLookup ip with
        | some loc => { ev with location := some loc }
        | none => ev
      else ev
    | none => ev
  else ev

/-- Step 2 of `enrich`: entity metadata (lines 78-85).
`get_entity_metadata` catches its own exceptions; a `none` result skips
only this aspect. -/
def stepMeta (cfg : EnricherConfig) (steps : EnrichSteps)
    (ev : NormalizedEvent) : NormalizedEvent :=
  if cfg.enable_entity_metadata then
    match optTruthy ev.entity_id with
    | some eid =>
      match steps.getEntityMetadata eid with
      | some md => { ev with entity_metadata := some md }
      | none => ev
    | none => ev
  else ev

/-- Step 3 of `enrich`: device fingerprint (lines 87-92); an exception
raised by `parse_user_agent` escapes to the outer handler. -/
def stepDevice (cfg : EnricherConfig) (steps : EnrichSteps)
    (ev : NormalizedEvent) : Except Unit NormalizedEvent :=
  if cfg.enable_device_fingerprint then
    match optTruthy ev.user_agent with
    | some ua =>
      if ev.device = none then
        (steps.parseUserAgent ua).map fun d? =>
          match d? with
          | some d => { ev with device := some d }
          | none => ev
      else pure ev
    | none => pure ev
  else pure ev

/-- Step 4 of `enrich`: sensitivity classification (lines 94-97); an
exception raised by `classify_resource_sensitivity` escapes to the
outer handler.  The `resource` dict of a normalized event is always
present and non-empty, so its truthiness test reduces to the flag. -/
def stepClassify (cfg : EnricherConfig) (steps : EnrichSteps)
    (ev : NormalizedEvent) : Except Unit NormalizedEvent :=
  if cfg.enable_resource_classification then
    (steps.classifySensitivity ev.resource).map fun lvl =>
      { ev with resource := { ev.resource with sensitivity_level := lvl } }
  else pure ev

/-- Body of `EventEnricher.enrich` before the outer `except` clause
(the five steps, in source order).  A `.error` is an exception escaping
a step. -/
def enrichAux (cfg : EnricherConfig) (steps : EnrichSteps)
    (ev : NormalizedEvent) : Except Unit NormalizedEvent := do
  let e3 ← stepDevice cfg steps (stepMeta cfg steps (stepGeo cfg steps ev))
  let e4 ← stepClassify cfg steps e3
  steps.anonymizePii e4

/-- Embedding of `EventEnricher.enrich`: any exception escaping a step
is caught and the original normalized event is returned. -/
def enrich (cfg : EnricherConfig) (steps : EnrichSteps)
    (ev : NormalizedEvent) : NormalizedEvent :=
  match enrichAux cfg steps ev with
  | .ok e => e
  | .error _ => ev

/-- Whether a fallible computation succeeded. -/
def exceptOk {ε α : Type} : Except ε α → Bool
  | .ok _ => true
  | .error _ => false

/-! ### IP anonymization (schemas/unified_schema.py lines 176-185)

The `UnifiedEvent.anonymize_ip` validator masks the last octet of a
dotted IPv4 `source_ip` when `source_ip_anonymized` was not set. -/

/-- Embedding of Python `str.split('.')`: `""` splits to `[""]`. -/
def splitDots : List Char → List (List Char)
  | [] => [[]]
  | c :: rest =>
    if c = '.' then [] :: splitDots rest
    else
      match splitDots rest with
      | s :: ss => (c :: s) :: ss
      | [] => [[c]]

/-- Embedding of the `anonymize_ip` validator: `v` is the current
`source_ip_anonymized` value, `sourceIp` the already-validated
`source_ip` (absent when that field failed validation). -/
def anonymizeIpField (v : Option String) (sourceIp : Option String) :
    Option String :=
  match v with
  | some _ => v
  | none =>
    match sourceIp with
    | none => none
    | some ip =>
      let parts := splitDots ip.data
      if h : parts.length = 4 then
        some (String.mk (parts[0] ++ '.' :: parts[1] ++ '.' :: parts[2]
                          ++ ".XXX".data))
      else none

/-- A dotted-IPv4 octet: a non-empty string of decimal digits with
value at most 255. -/
def isIPv4Octet (l : List Char) : Prop :=
  l ≠ [] ∧ (∀ c ∈ l, c.isDigit = true) ∧ digitsToNat l ≤ 255

instance (l : List Char) : Decidable (isIPv4Octet l) := by
  unfold isIPv4Octet
  infer_instance

/-! ### Hybrid queue (ingestion/queue.py)

The in-memory `asyncio.Queue` is a FIFO list bounded by `maxSize`; the
SQLite disk buffer is a FIFO list (append at tail, read from head).
`putFault` embeds `put_nowait` raising an exception other than
`QueueFull` (the generic `except` branch of `put`); `diskOk` embeds the
success of `DiskBuffer.write`, which catches its own exceptions and
returns a boolean. -/

/-- State of a `HybridQueue`: the memory ring, the disk buffer,
configuration and the `stats` counters. -/
structure QState (α : Type) where
  memory : List α
  disk : List α
  maxSize : Nat
  strategy : String
  enqueued : Nat := 0
  dequeued : Nat := 0
  overflowed : Nat := 0
  dropped : Nat := 0
  disk_reads : Nat := 0
  disk_writes : Nat := 0
  errors : Nat := 0

/-- `asyncio.Queue.full()` / `put_nowait` failure condition: a maxsize
of 0 means unbounded. -/
def memFull {α : Type} (s : QState α) : Bool :=
  0 < s.maxSize && s.maxSize ≤ s.memory.length

/-- Embedding of `HybridQueue._handle_overflow`
(ingestion/queue.py lines 255-288). -/
def handleOverflow {α : Type} (e : α) (diskOk : Bool) (s : QState α) :
    Bool × QState α :=
  if s.strategy = "disk" then
    if diskOk then
      (true, { s with disk := s.disk ++ [e],
                      overflowed := s.overflowed + 1,
                      disk_writes := s.disk_writes + 1 })
    else (false, { s with dropped := s.dropped + 1 })
  else if s.strategy = "drop" then
    (false, { s with dropped := s.dropped + 1 })
  else (false, { s with dropped := s.dropped + 1 })

/-- Embedding of `HybridQueue.put` (ingestion/queue.py lines 229-253):
try the memory ring, on `QueueFull` overflow, on any other exception
count an error and return `False`. -/
def qput {α : Type} (e : α) (putFault diskOk : Bool) (s : QState α) :
    Bool × QState α :=
  if putFault then (false, { s with errors := s.errors + 1 })
  else if memFull s then handleOverflow e diskOk s
  else (true, { s with memory := s.memory ++ [e],
                       enqueued := s.enqueued + 1 })

/-- The refill loop of `HybridQueue._refill_from_disk` (lines 349-359):
pull up to `k` items from the disk head; if the ring is full at a pull,
write the pulled item back to the disk tail and stop. -/
def refillLoop {α : Type} : Nat → QState α → QState α
  | 0, s => s
  | k + 1, s =>
    match s.disk with
    | [] => refillLoop k s
    | e :: rest =>
      if memFull s then { s with disk := rest ++ [e] }
      else refillLoop k { s with memory := s.memory ++ [e], disk := rest,
                                 disk_reads := s.disk_reads + 1 }

/-- Embedding of `HybridQueue._refill_from_disk` (lines 332-362): only
when the ring is under half capacity and the disk buffer is non-empty,
refill up to 10 percent of `max_memory_size` items. -/
def refillFromDisk {α : Type} (s : QState α) : QState α :=
  if 2 * s.memory.length < s.maxSize then
    if 0 < s.disk.length then
      refillLoop (min s.disk.length (s.maxSize / 10)) s
    else s
  else s

/-- Embedding of `HybridQueue.get` (lines 290-330): prefer the memory
ring (refilling from disk after a successful memory dequeue); on
timeout (empty ring) read the oldest disk record. -/
def qget {α : Type} (s : QState α) : Option α × QState α :=
  match s.memory with
  | m :: ms =>
    let s1 := { s with memory := ms, dequeued := s.dequeued + 1 }
    (some m, refillFromDisk s1)
  | [] =>
    match s.disk with
    | [] => (none, s)
    | d :: rest =>
      (some d, { s with disk := rest, dequeued := s.dequeued + 1,
                        disk_reads := s.disk_reads + 1 })

/-- A sequence of `put` calls (event, putFault, diskOk). -/
def putSeq {α : Type} (calls : List (α × Bool × Bool)) (s : QState α) :
    QState α :=
  calls.foldl (fun st c => (qput c.1 c.2.1 c.2.2 st).2) s

/-- The sum of the four outcome counters of `put`
(`enqueued + overflowed + dropped + errors`). -/
def statsSum {α : Type} (s : QState α) : Nat :=
  s.enqueued + s.overflowed + s.dropped + s.errors

/-! ### Batch ingestion (ingestion/api.py `ingest_batch`, lines 474-543) -/

/-- The `results` record returned by `/ingest/batch`. -/
structure BatchResults where
  total : Nat
  accepted : Nat
  rejected : Nat
  errorList : List String
  deriving Repr, DecidableEq

/-- HTTP failures of `ingest_batch` before the per-event loop. -/
inductive IngestFailure where
  | entityTooLarge
  | badSourceType
  deriving Repr, DecidableEq

/-- `APIConfig.MAX_BATCH_SIZE`. -/
def maxBatchSize : Nat := 1000

/-- The per-event loop of `ingest_batch`: each event is queued; a
truthy result increments `accepted`, anything else (including the
caught exception branch) increments `rejected`. -/
def ingestLoop {α : Type} (faults : Nat → Bool × Bool) :
    List α → Nat → BatchResults → QState α → BatchResults × QState α
  | [], _, r, s => (r, s)
  | e :: rest, idx, r, s =>
    let p := qput e (faults idx).1 (faults idx).2 s
    let r2 :=
      if p.1 then { r with accepted := r.accepted + 1 }
      else { r with rejected := r.rejected + 1,
                    errorList := r.errorList ++
                      ["Event " ++ toString idx ++ ": Queue full"] }
    ingestLoop faults rest (idx + 1) r2 p.2

/-- Embedding of `ingest_batch`: size check, source-type check, then
the per-event loop. -/
def ingestBatch {α : Type} (events : List α) (sourceType : String)
    (faults : Nat → Bool × Bool) (s : QState α) :
    Except IngestFailure (BatchResults × QState α) :=
  if maxBatchSize < events.length then .error .entityTooLarge
  else if sourceType ≠ "azure_ad" ∧ sourceType ≠ "cloudtrail" ∧
          sourceType ≠ "api_gateway" then .error .badSourceType
  else .ok (ingestLoop faults events 0
              { total := events.length, accepted := 0, rejected := 0,
                errorList := [] } s)

/-! ### Storage layer (storage_layer.py)

`write_events` converts the batch to a DataFrame, derives `date` and
`hour` from `timestamp` and groups by `(date, hour, source_system)`.
Rows are embedded with concrete timestamps (a null timestamp becomes
`NaT` and is dropped by the pandas groupby, so it reaches no partition
file).  The object store is an association list keyed by
(tier, partition key), the structured form of the rendered S3 key. -/

/-- Zero-padded two-digit rendering (`f"{hour:02d}"`, `%m`, `%d`). -/
def pad2 (n : Nat) : String :=
  if n < 10 then "0" ++ toString n else toString n

/-- Zero-padded four-digit year rendering. -/
def pad4 (n : Nat) : String :=
  if n < 10 then "000" ++ toString n
  else if n < 100 then "00" ++ toString n
  else if n < 1000 then "0" ++ toString n
  else toString n

/-- `str(timestamp.date())`: the `YYYY-MM-DD` partition date. -/
def dateStr (t : Timestamp) : String :=
  pad4 t.year ++ "-" ++ pad2 t.month ++ "-" ++ pad2 t.day

/-- A storage row: the columns of the unified-event DataFrame that the
storage layer reads; all remaining columns are opaque payload. -/
structure StorageRow where
  timestamp : Timestamp
  source_system : String
  payload : String := ""
  deriving Repr, DecidableEq

/-- The `(date, hour, source_system)` partition key. -/
structure PartitionKey where
  date : String
  hour : Nat
  source : String
  deriving Repr, DecidableEq

/-- The partition key of a row: `date` and `hour` are derived from its
`timestamp` (storage_layer.py lines 113-115). -/
def rowKey (r : StorageRow) : PartitionKey :=
  { date := dateStr r.timestamp, hour := r.timestamp.hour,
    source := r.source_system }

/-- The S3 object key / local path of a partition file
(storage_layer.py line 127 and 414-417). -/
def partitionPath (tier : String) (k : PartitionKey) : String :=
  tier ++ "/date=" ++ k.date ++ "/hour=" ++ pad2 k.hour ++
    "/source=" ++ k.source ++ "/events.parquet"

/-- The pandas `groupby(['date', 'hour', 'source_system'])`: one group
per distinct key, containing exactly the rows with that key. -/
def groupByPartition (events : List StorageRow) :
    List (PartitionKey × List StorageRow) :=
  ((events.map rowKey).dedup).map fun k =>
    (k, events.filter fun r => rowKey r = k)

/-- Embedding of the partitioning step of `StorageLayer.write_events` /
`LocalStorageLayer.write_events`: the empty batch writes nothing. -/
def writeEvents (events : List StorageRow) :
    List (PartitionKey × List StorageRow) :=
  if events = [] then [] else groupByPartition events

/-- The object store: partition files keyed by (tier, partition). -/
def Store : Type := List ((String × PartitionKey) × List StorageRow)

/-- Contents of the object at a key, if it exists. -/
def storeGet (st : Store) (k : String × PartitionKey) :
    Option (List StorageRow) :=
  match st.find? (fun kv => kv.1 = k) with
  | some kv => some kv.2
  | none => none

/-- Bind a key to new contents, replacing any previous object. -/
def storeSet (st : Store) (k : String × PartitionKey)
    (v : List StorageRow) : Store :=
  (k, v) :: st.filter (fun kv => kv.1 ≠ k)

/-- Embedding of `StorageLayer._write_partition` (storage_layer.py
lines 122-156): `put_object` stores the freshly encoded group at the
key, replacing whatever object was there. -/
def s3WritePartition (tier : String) (st : Store)
    (kv : PartitionKey × List StorageRow) : Store :=
  storeSet st (tier, kv.1) kv.2

/-- Embedding of `StorageLayer.write_events` (lines 95-120). -/
def s3WriteEvents (st : Store) (events : List StorageRow)
    (tier : String) : Store :=
  (writeEvents events).foldl (s3WritePartition tier) st

/-- Embedding of the per-partition write of
`LocalStorageLayer.write_events` (lines 413-427): if the partition file
exists it is read, concatenated with the new group and rewritten. -/
def localWritePartition (tier : String) (st : Store)
    (kv : PartitionKey × List StorageRow) : Store :=
  match storeGet st (tier, kv.1) with
  | some existing => storeSet st (tier, kv.1) (existing ++ kv.2)
  | none => storeSet st (tier, kv.1) kv.2

/-- Embedding of `LocalStorageLayer.write_events` (lines 402-427). -/
def localWriteEvents (st : Store) (events : List StorageRow)
    (tier : String) : Store :=
  (writeEvents events).foldl (localWritePartition tier) st

/-- Tier retention configuration (`StorageConfig`). -/
structure StorageTierConfig where
  hot_retention_days : Int := 7
  warm_retention_days : Int := 30
  cold_retention_days : Int := 90
  deriving Repr, DecidableEq

/-- Embedding of `StorageLayer._determine_tiers` (storage_layer.py
lines 217-237); instants are measured in days on an integer axis. -/
def determineTiers (cfg : StorageTierConfig)
    (now startTime endTime : Int) : List String :=
  let hotCutoff := now - cfg.hot_retention_days
  let warmCutoff := now - cfg.warm_retention_days
  let coldCutoff := now - cfg.cold_retention_days
  let tiers :=
    (if hotCutoff ≤ endTime then ["hot"] else []) ++
    (if startTime < hotCutoff ∧ warmCutoff ≤ endTime then ["warm"] else []) ++
    (if startTime < warmCutoff ∧ coldCutoff ≤ endTime then ["cold"] else [])
  if tiers = [] then ["hot"] else tiers

/-! ### Concrete fixtures

Sample inputs used to evaluate the embedded operations at concrete
values (witnesses and counterexamples). -/

/-- A processing instant (embeds `datetime.utcnow()`). -/
def now0 : Timestamp := ⟨2025, 1, 8, 12, 0, 0, 0⟩

/-- 2025-01-08 10:00:00 UTC, a Wednesday inside business hours. -/
def t0 : Timestamp := ⟨2025, 1, 8, 10, 0, 0, 0⟩

/-- An Azure AD raw event whose timestamp cannot be parsed. -/
def rawBadTs : RawEvent :=
  { source_type := some "azure_ad",
    id := some "test-123",
    createdDateTime := some "not-a-timestamp",
    userPrincipalName := some "alice@company.com",
    ipAddress := some "192.168.1.100",
    status := some { errorCode := some 0 } }

/-- The unified event the normalizer produces for `rawBadTs`. -/
def badEv : NormalizedEvent :=
  { normalizeAzureAd rawBadTs with processing_timestamp := some now0 }

/-- The sample Azure AD sign-in of the repository's normalizer test. -/
def rawAz : RawEvent :=
  { source_type := some "azure_ad",
    id := some "test-123",
    createdDateTime := some "2025-01-08T10:00:00Z",
    userPrincipalName := some "alice@company.com",
    userId := some "user_001",
    appId := some "app-123",
    appDisplayName := some "Office 365",
    ipAddress := some "192.168.1.100",
    clientAppUsed := some "Browser",
    correlationId := some "corr-123",
    status := some { errorCode := some 0 },
    ingestion_timestamp := some "2025-01-08T10:00:01Z" }

/-- The unified event the normalizer produces for `rawAz`. -/
def azNorm : NormalizedEvent :=
  { normalizeAzureAd rawAz with processing_timestamp := some now0 }

/-- Enricher configuration with every aspect enabled (the default). -/
def cfgAll : EnricherConfig := {}

/-- A geo record returned by a successful lookup. -/
def loc0 : LocationContext :=
  { city := some "Mountain View", country := some "US" }

/-- Oracles where the geo lookup succeeds but the sensitivity
classification raises. -/
def stepsFail : EnrichSteps :=
  { geoipLookup := fun _ => some loc0,
    getEntityMetadata := fun _ => none,
    parseUserAgent := fun _ => .ok none,
    classifySensitivity := fun _ => .error (),
    anonymizePii := fun e => .ok e }

/-- Oracles where every fallible step succeeds. -/
def stepsOk : EnrichSteps :=
  { geoipLookup := fun _ => some loc0,
    getEntityMetadata := fun _ => none,
    parseUserAgent := fun _ => .ok none,
    classifySensitivity := fun _ => .ok 3,
    anonymizePii := fun e => .ok e }

/-- An API Gateway raw event with a source IP and no location. -/
def rawApi4 : RawEvent :=
  { source_type := some "api_gateway",
    timestamp := some "2025-01-08T10:10:00Z",
    request_id := some "req-789",
    user_id := some "svc_01",
    method := some "GET",
    endpoint := some "/api/users",
    status_code := some 200,
    source_ip := some "8.8.8.8" }

/-- The normalized event enrichment starts from in the enricher
fixtures. -/
def ev4 : NormalizedEvent := normalizeApiGateway rawApi4

/-- A storage row for the partitioning fixtures. -/
def row0 : StorageRow := ⟨⟨2025, 1, 8, 10, 0, 0, 0⟩, "azure_ad", ""⟩

/-- The partition key of `row0`. -/
def k0 : PartitionKey := ⟨"2025-01-08", 10, "azure_ad"⟩

/-- A row present in a partition file before a second flush. -/
def rowOld : StorageRow := ⟨⟨2025, 1, 8, 10, 0, 0, 0⟩, "azure_ad", "old"⟩

/-- A row of a later flush to the same partition. -/
def rowNew : StorageRow := ⟨⟨2025, 1, 8, 10, 0, 0, 0⟩, "azure_ad", "new"⟩

/-- The partition key shared by `rowOld` and `rowNew`. -/
def k6 : PartitionKey := ⟨"2025-01-08", 10, "azure_ad"⟩

/-- A store in which the hot partition file for `k6` already exists. -/
def st6 : Store := [(("hot", k6), [rowOld])]

/-- A queue state about to serve an in-memory dequeue with disk
backlog. -/
def sW : QState Nat :=
  { memory := [1, 2], disk := [5, 6, 7], maxSize := 30, strategy := "disk" }

/-- A queue state whose memory ring is full (refill contention). -/
def sF : QState Nat :=
  { memory := [1, 2, 3], disk := [9, 10], maxSize := 3, strategy := "disk" }

/-- An empty queue for the put fixtures. -/
def qs1 : QState Nat :=
  { memory := [], disk := [], maxSize := 2, strategy := "disk" }

/-- An empty queue for the batch-ingestion fixtures. -/
def qs0 : QState Unit :=
  { memory := [], disk := [], maxSize := 10, strategy := "disk" }

/-- No injected faults: `put_nowait` behaves normally and disk writes
succeed. -/
def faultsNone : Nat → Bool × Bool := fun _ => (false, false)

/-- The batch-results record of a concrete three-event batch. -/
def rB : BatchResults :=
  (ingestLoop faultsNone [(), (), ()] 0
    { total := 3, accepted := 0, rejected := 0, errorList := [] } qs0).1

/-- The queue state after the concrete three-event batch. -/
def sB : QState Unit :=
  (ingestLoop faultsNone [(), (), ()] 0
    { total := 3, accepted := 0, rejected := 0, errorList := [] } qs0).2

/-! ## Theorems -/

/-- C3: for every time range and current time, the read path selects
hot iff the range end is within hot retention, warm iff the range
starts before the hot cutoff and ends within warm retention, cold iff
the range starts before the warm cutoff and ends within cold
retention; when no condition holds the selection defaults to hot
only. -/
theorem determineTiers_spec (cfg : StorageTierConfig)
    (now startTime endTime : Int) :
    ((now - cfg.hot_retention_days ≤ endTime ∨
      (startTime < now - cfg.hot_retention_days ∧
        now - cfg.warm_retention_days ≤ endTime) ∨
      (startTime < now - cfg.warm_retention_days ∧
        now - cfg.cold_retention_days ≤ endTime)) →
      (("hot" ∈ determineTiers cfg now startTime endTime ↔
          now - cfg.hot_retention_days ≤ endTime) ∧
       ("warm" ∈ determineTiers cfg now startTime endTime ↔
          (startTime < now - cfg.hot_retention_days ∧
            now - cfg.warm_retention_days ≤ endTime)) ∧
       ("cold" ∈ determineTiers cfg now startTime endTime ↔
          (startTime < now - cfg.warm_retention_days ∧
            now - cfg.cold_retention_days ≤ endTime)))) ∧
    ((¬ (now - cfg.hot_retention_days ≤ endTime ∨
         (startTime < now - cfg.hot_retention_days ∧
           now - cfg.warm_retention_days ≤ endTime) ∨
         (startTime < now - cfg.warm_retention_days ∧
           now - cfg.cold_retention_days ≤ endTime))) →
      determineTiers cfg now startTime endTime = ["hot"]) := by
  unfold determineTiers
  by_cases h1 : now - cfg.hot_retention_days ≤ endTime <;>
  by_cases h2 : startTime < now - cfg.hot_retention_days ∧
      now - cfg.warm_retention_days ≤ endTime <;>
  by_cases h3 : startTime < now - cfg.warm_retention_days ∧
      now - cfg.cold_retention_days ≤ endTime <;>
  simp only [h1, h2, h3, if_true, if_false, ite_true, ite_false,
    List.append_nil, List.nil_append, List.cons_append,
    List.append_assoc] <;>
  constructor <;>
  · intro hsel
    simp_all

/-- C3 witness: with the default retention configuration, a range
ending one day before `now` selects the hot tier. -/
theorem determineTiers_spec_witness :
    "hot" ∈ determineTiers {} 100 95 99 :=
  ((determineTiers_spec {} 100 95 99).1 (Or.inl (by decide))).1.mpr
    (by decide)

/-- C1: in every non-empty batch write, the rows placed in a partition
file all have the date, hour and source system of that partition's key,
the components named in the file's path. -/
theorem writeEvents_partition_rows (events : List StorageRow)
    (h : events ≠ []) :
    ∀ kv ∈ writeEvents events, ∀ r ∈ kv.2,
      rowKey r = kv.1 ∧ dateStr r.timestamp = kv.1.date ∧
      r.timestamp.hour = kv.1.hour ∧ r.source_system = kv.1.source := by
  intro kv hkv r hr
  unfold writeEvents at hkv
  rw [if_neg h] at hkv
  unfold groupByPartition at hkv
  obtain ⟨k, hk, hkv⟩ := List.mem_map.mp hkv
  subst hkv
  have hkey : rowKey r = k := by
    have hf := List.mem_filter.mp hr
    simpa using hf.2
  exact ⟨hkey, congrArg PartitionKey.date hkey,
    congrArg PartitionKey.hour hkey, congrArg PartitionKey.source hkey⟩

/-- C1 witness: a singleton batch is written to the partition keyed by
its own date, hour and source. -/
theorem writeEvents_partition_rows_witness :
    rowKey row0 = k0 ∧ dateStr row0.timestamp = k0.date ∧
    row0.timestamp.hour = k0.hour ∧ row0.source_system = k0.source :=
  writeEvents_partition_rows [row0] (by decide) (k0, [row0]) (by decide)
    row0 (by decide)

/-- Counting helper for the batch-ingestion loop: each iteration adds
exactly one to `accepted + rejected` and never changes `total`. -/
theorem ingestLoop_counts {α : Type} (faults : Nat → Bool × Bool)
    (events : List α) :
    ∀ (idx : Nat) (r : BatchResults) (s : QState α),
      (ingestLoop faults events idx r s).1.accepted +
          (ingestLoop faults events idx r s).1.rejected =
        r.accepted + r.rejected + events.length ∧
      (ingestLoop faults events idx r s).1.total = r.total := by
  induction events with
  | nil => intro idx r s; simp [ingestLoop]
  | cons e rest ih =>
    intro idx r s
    by_cases hb : (qput e (faults idx).1 (faults idx).2 s).1 = true
    · have hs := ih (idx + 1) { r with accepted := r.accepted + 1 }
        (qput e (faults idx).1 (faults idx).2 s).2
      simp only [ingestLoop, hb, if_true, ite_true]
      refine ⟨?_, ?_⟩
      · have h1 := hs.1
        simp at h1 ⊢
        omega
      · simpa using hs.2
    · have hb2 : (qput e (faults idx).1 (faults idx).2 s).1 = false :=
        by simpa using hb
      have hs := ih (idx + 1)
        { r with rejected := r.rejected + 1,
                 errorList := r.errorList ++
                   ["Event " ++ toString idx ++ ": Queue full"] }
        (qput e (faults idx).1 (faults idx).2 s).2
      simp only [ingestLoop, hb2, if_false, ite_false, Bool.false_eq_true]
      refine ⟨?_, ?_⟩
      · have h1 := hs.1
        simp at h1 ⊢
        omega
      · simpa using hs.2

/-- C9: every batch ingestion request that passes the size and
source-type checks produces a response with
`accepted + rejected = total`, where `total` is the number of records
in the request. -/
theorem ingestBatch_total {α : Type} (events : List α)
    (sourceType : String) (faults : Nat → Bool × Bool) (s : QState α)
    (r : BatchResults) (s2 : QState α)
    (hok : ingestBatch events sourceType faults s = .ok (r, s2)) :
    r.accepted + r.rejected = r.total ∧ r.total = events.length := by
  unfold ingestBatch at hok
  by_cases h1 : maxBatchSize < events.length
  · rw [if_pos h1] at hok
    exact Except.noConfusion hok
  · rw [if_neg h1] at hok
    by_cases h2 : sourceType ≠ "azure_ad" ∧ sourceType ≠ "cloudtrail" ∧
        sourceType ≠ "api_gateway"
    · rw [if_pos h2] at hok
      exact Except.noConfusion hok
    · rw [if_neg h2] at hok
      have hpair : ingestLoop faults events 0
          { total := events.length, accepted := 0, rejected := 0,
            errorList := [] } s = (r, s2) := by
        injection hok
      obtain ⟨hc, ht⟩ := ingestLoop_counts faults events 0
        { total := events.length, accepted := 0, rejected := 0,
          errorList := [] } s
      rw [hpair] at hc ht
      simp at hc ht
      omega

/-- C9 witness: a concrete three-record batch satisfies
`accepted + rejected = total = 3`. -/
theorem ingestBatch_total_witness :
    rB.accepted + rB.rejected = rB.total ∧ rB.total = 3 :=
  ingestBatch_total [(), (), ()] "azure_ad" faultsNone qs0 rB sB rfl

/-- C10: every `put` call returns a boolean (the function is total),
increments exactly one of the counters `enqueued`, `overflowed`,
`dropped`, `errors` (their sum grows by one and each grows by at most
one), returns `True` exactly when the call was counted as enqueued or
overflowed, and after any sequence of calls the sum of the four
counters equals the number of calls. -/
theorem qput_counters_spec :
    (∀ {α : Type} (e : α) (f d : Bool) (s : QState α),
      statsSum (qput e f d s).2 = statsSum s + 1 ∧
      s.enqueued ≤ (qput e f d s).2.enqueued ∧
      (qput e f d s).2.enqueued ≤ s.enqueued + 1 ∧
      s.overflowed ≤ (qput e f d s).2.overflowed ∧
      (qput e f d s).2.overflowed ≤ s.overflowed + 1 ∧
      s.dropped ≤ (qput e f d s).2.dropped ∧
      (qput e f d s).2.dropped ≤ s.dropped + 1 ∧
      s.errors ≤ (qput e f d s).2.errors ∧
      (qput e f d s).2.errors ≤ s.errors + 1 ∧
      ((qput e f d s).1 = true ↔
        (qput e f d s).2.enqueued + (qput e f d s).2.overflowed =
          s.enqueued + s.overflowed + 1)) ∧
    (∀ {α : Type} (calls : List (α × Bool × Bool)) (s : QState α),
      statsSum (putSeq calls s) = statsSum s + calls.length) := by
  have hone : ∀ {α : Type} (e : α) (f d : Bool) (s : QState α),
      statsSum (qput e f d s).2 = statsSum s + 1 ∧
      s.enqueued ≤ (qput e f d s).2.enqueued ∧
      (qput e f d s).2.enqueued ≤ s.enqueued + 1 ∧
      s.overflowed ≤ (qput e f d s).2.overflowed ∧
      (qput e f d s).2.overflowed ≤ s.overflowed + 1 ∧
      s.dropped ≤ (qput e f d s).2.dropped ∧
      (qput e f d s).2.dropped ≤ s.dropped + 1 ∧
      s.errors ≤ (qput e f d s).2.errors ∧
      (qput e f d s).2.errors ≤ s.errors + 1 ∧
      ((qput e f d s).1 = true ↔
        (qput e f d s).2.enqueued + (qput e f d s).2.overflowed =
          s.enqueued + s.overflowed + 1) := by
    intro α e f d s
    unfold qput handleOverflow statsSum
    split_ifs <;> simp <;> omega
  refine ⟨hone, ?_⟩
  intro α calls
  induction calls with
  | nil => intro s; simp [putSeq, statsSum]
  | cons c rest ih =>
    intro s
    have hc := (hone c.1 c.2.1 c.2.2 s).1
    calc statsSum (putSeq (c :: rest) s)
        = statsSum (putSeq rest (qput c.1 c.2.1 c.2.2 s).2) := rfl
      _ = statsSum (qput c.1 c.2.1 c.2.2 s).2 + rest.length := ih _
      _ = statsSum s + 1 + rest.length := by rw [hc]
      _ = statsSum s + (c :: rest).length := by simp; omega

/-- Each refill-loop iteration moves at most one item into memory. -/
theorem refillLoop_memory_le {α : Type} (k : Nat) :
    ∀ s : QState α,
      (refillLoop k s).memory.length ≤ s.memory.length + k := by
  induction k with
  | zero => intro s; simp [refillLoop]
  | succ n ih =>
    intro s
    rw [refillLoop]
    rcases hd : s.disk with _ | ⟨e, rest⟩
    · exact (ih s).trans (by omega)
    · by_cases hf : memFull s = true
      · simp only [hf, if_true, ite_true]
        omega
      · have hf2 : memFull s = false := by simpa using hf
        simp only [hf2, if_false, ite_false, Bool.false_eq_true]
        have := ih { s with memory := s.memory ++ [e], disk := rest,
                            disk_reads := s.disk_reads + 1 }
        simp at this
        omega

/-- C5: after a successful in-memory dequeue, `get` returns the head
of the ring and the refill moves at most 10 percent of
`max_memory_size` items from the durable buffer into the ring; and
when the ring is full at a pull inside the refill loop, the pulled
item is written back to the tail of the durable buffer and the loop
stops. -/
theorem queue_refill_spec :
    (∀ {α : Type} (s : QState α) (m : α) (ms : List α),
      s.memory = m :: ms →
      (qget s).1 = some m ∧
      ((qget s).2).memory.length ≤ ms.length + s.maxSize / 10) ∧
    (∀ {α : Type} (k : Nat) (s : QState α) (e : α) (rest : List α),
      s.disk = e :: rest → memFull s = true →
      refillLoop (k + 1) s = { s with disk := rest ++ [e] }) := by
  constructor
  · intro α s m ms hm
    unfold qget
    rw [hm]
    refine ⟨rfl, ?_⟩
    dsimp only
    unfold refillFromDisk
    split_ifs with h1 h2
    · have := refillLoop_memory_le
        (min ({ s with memory := ms, dequeued := s.dequeued + 1
              } : QState α).disk.length (s.maxSize / 10))
        { s with memory := ms, dequeued := s.dequeued + 1 }
      simp at this ⊢
      have hmin : min s.disk.length (s.maxSize / 10) ≤ s.maxSize / 10 :=
        Nat.min_le_right _ _
      omega
    · simp
    · simp
  · intro α k s e rest hd hf
    rw [refillLoop]
    rw [hd]
    simp only [hf, if_true, ite_true]

/-- C5 witness: on a concrete queue the dequeue returns the ring head
and refills within the 10 percent bound, and a full ring at a refill
pull sends the pulled disk item back to the disk tail. -/
theorem queue_refill_spec_witness :
    ((qget sW).1 = some 1 ∧
      ((qget sW).2).memory.length ≤ [2].length + sW.maxSize / 10) ∧
    refillLoop (0 + 1) sF = { sF with disk := [10] ++ [9] } :=
  ⟨queue_refill_spec.1 sW 1 [2] rfl,
   queue_refill_spec.2 0 sF 9 [10] rfl rfl⟩

/-- Every mapper sets `temporal` to the temporal features of the
event's own (parsed) timestamp. -/
theorem normalize_temporal_eq (now : Timestamp) (raw : RawEvent)
    (ev : NormalizedEvent) (h : normalize now raw = .ok ev) :
    ev.temporal = ev.timestamp.map extractTemporalFeatures := by
  unfold normalize at h
  rcases hst : optTruthy raw.source_type with _ | st
  · rw [hst] at h
    exact Except.noConfusion h
  · rw [hst] at h
    dsimp only at h
    split_ifs at h <;> first
      | exact Except.noConfusion h
      | (injection h with h2; exact h2 ▸ rfl)

/-- C8: the derived temporal context has `hour_of_day` equal to the
UTC hour of the timestamp, `is_business_hours` iff the hour is in
[9, 17), `is_weekend` iff `day_of_week ≥ 5`; and for every normalized
event the whole temporal record is the pure image of its timestamp, so
equal timestamps give equal temporal contexts. -/
theorem temporal_spec :
    (∀ t : Timestamp,
      (extractTemporalFeatures t).hour_of_day = t.hour ∧
      ((extractTemporalFeatures t).is_business_hours = true ↔
        (9 ≤ t.hour ∧ t.hour < 17)) ∧
      ((extractTemporalFeatures t).is_weekend = true ↔
        5 ≤ (extractTemporalFeatures t).day_of_week)) ∧
    (∀ (now : Timestamp) (raw : RawEvent) (ev : NormalizedEvent),
      normalize now raw = .ok ev →
      ev.temporal = ev.timestamp.map extractTemporalFeatures) ∧
    (∀ (n1 n2 : Timestamp) (r1 r2 : RawEvent)
        (e1 e2 : NormalizedEvent),
      normalize n1 r1 = .ok e1 → normalize n2 r2 = .ok e2 →
      e1.timestamp = e2.timestamp → e1.temporal = e2.temporal) := by
  refine ⟨?_, normalize_temporal_eq, ?_⟩
  · intro t
    refine ⟨rfl, ?_, ?_⟩ <;> simp [extractTemporalFeatures]
  · intro n1 n2 r1 r2 e1 e2 h1 h2 hts
    rw [normalize_temporal_eq n1 r1 e1 h1,
      normalize_temporal_eq n2 r2 e2 h2, hts]

/-- C8 witness: at 2025-01-08 10:00 UTC the derived context is inside
business hours, and the concrete Azure AD normalization carries the
temporal image of its own timestamp. -/
theorem temporal_spec_witness :
    (extractTemporalFeatures t0).is_business_hours = true ∧
    azNorm.temporal = azNorm.timestamp.map extractTemporalFeatures :=
  ⟨((temporal_spec.1 t0).2.1).mpr (by decide),
   temporal_spec.2.1 now0 rawAz azNorm rfl⟩

/-- C2 counterexample: an Azure AD event whose `createdDateTime` does
not parse is NOT rejected; `normalize` succeeds and returns a unified
event whose `timestamp` is `None`. -/
theorem normalize_badts_counterexample :
    normalize now0 rawBadTs = Except.ok badEv ∧
    badEv.timestamp = none ∧
    parseTimestamp rawBadTs.createdDateTime = none :=
  ⟨rfl, by decide, by decide⟩

/-- C2 amended: for every raw event with a present, registered
`source_type`, `normalize` succeeds and the unified `timestamp` is
exactly the result of `_parse_timestamp` on the source's timestamp
field; when that field is unparseable the parse result is `None`, so
the event is normalized with an absent timestamp rather than
rejected. -/
theorem normalize_unparseable_timestamp (now : Timestamp)
    (raw : RawEvent) (st : String)
    (hst : optTruthy raw.source_type = some st)
    (hreg : st = "azure_ad" ∨ st = "cloudtrail" ∨ st = "api_gateway") :
    ∃ ev, normalize now raw = Except.ok ev ∧
      ev.timestamp = parseTimestamp
        (if st = "azure_ad" then raw.createdDateTime
         else if st = "cloudtrail" then raw.eventTime
         else raw.timestamp) := by
  rcases hreg with h | h | h <;> subst h
  · refine ⟨{ normalizeAzureAd raw with processing_timestamp := some now },
      ?_, rfl⟩
    unfold normalize
    rw [hst]
    dsimp only
    simp
  · refine ⟨{ normalizeCloudtrail raw with
        processing_timestamp := some now }, ?_, rfl⟩
    unfold normalize
    rw [hst]
    dsimp only
    simp
  · refine ⟨{ normalizeApiGateway raw with
        processing_timestamp := some now }, ?_, rfl⟩
    unfold normalize
    rw [hst]
    dsimp only
    simp

/-- C2 amended witness: the concrete unparseable Azure AD event is
normalized (not rejected) with `timestamp = None`. -/
theorem normalize_unparseable_timestamp_witness :
    badEv.timestamp = none := by
  obtain ⟨ev, h1, h2⟩ := normalize_unparseable_timestamp now0 rawBadTs
    "azure_ad" rfl (Or.inl rfl)
  have hev : ev = badEv := by
    have hb : normalize now0 rawBadTs = Except.ok badEv := rfl
    rw [hb] at h1
    injection h1 with h1
    exact h1.symm
  rw [hev] at h2
  have hn : parseTimestamp
      (if ("azure_ad" : String) = "azure_ad" then rawBadTs.createdDateTime
       else if ("azure_ad" : String) = "cloudtrail" then rawBadTs.eventTime
       else rawBadTs.timestamp) = none := by decide
  exact h2.trans hn

/-- The device step only ever updates the `device` field. -/
theorem stepDevice_fields (cfg : EnricherConfig) (steps : EnrichSteps)
    (ev r : NormalizedEvent) (h : stepDevice cfg steps ev = .ok r) :
    r.location = ev.location ∧ r.entity_metadata = ev.entity_metadata := by
  unfold stepDevice at h
  split at h
  · split at h
    · split at h
      · rcases hpd : steps.parseUserAgent _ with u | d?
        · rw [hpd] at h
          exact Except.noConfusion h
        · rw [hpd] at h
          simp only [Except.map] at h
          injection h with h
          rcases d? with _ | d <;> subst h <;> exact ⟨rfl, rfl⟩
      · simp only [pure, Except.pure] at h
        injection h with h
        subst h
        exact ⟨rfl, rfl⟩
    · simp only [pure, Except.pure] at h
      injection h with h
      subst h
      exact ⟨rfl, rfl⟩
  · simp only [pure, Except.pure] at h
    injection h with h
    subst h
    exact ⟨rfl, rfl⟩

/-- The classification step only ever updates the `resource` field. -/
theorem stepClassify_fields (cfg : EnricherConfig) (steps : EnrichSteps)
    (ev r : NormalizedEvent) (h : stepClassify cfg steps ev = .ok r) :
    r.location = ev.location ∧ r.entity_metadata = ev.entity_metadata := by
  unfold stepClassify at h
  split at h
  · rcases hcl : steps.classifySensitivity _ with u | lvl
    · rw [hcl] at h
      exact Except.noConfusion h
    · rw [hcl] at h
      simp only [Except.map] at h
      injection h with h
      subst h
      exact ⟨rfl, rfl⟩
  · simp only [pure, Except.pure] at h
    injection h with h
    subst h
    exact ⟨rfl, rfl⟩

/-- When `parse_user_agent` does not raise, the device step
succeeds. -/
theorem stepDevice_ok (cfg : EnricherConfig) (steps : EnrichSteps)
    (ev : NormalizedEvent)
    (hua : ∀ s2, exceptOk (steps.parseUserAgent s2) = true) :
    ∃ r, stepDevice cfg steps ev = .ok r := by
  unfold stepDevice
  split
  · split
    · rename_i ua heq
      split
      · rcases hpd : steps.parseUserAgent ua with u | d?
        · have hx := hua ua
          rw [hpd] at hx
          exact absurd hx (by simp [exceptOk])
        · rcases d? with _ | d
          · exact ⟨ev, rfl⟩
          · exact ⟨{ ev with device := some d }, rfl⟩
      · exact ⟨ev, rfl⟩
    · exact ⟨ev, rfl⟩
  · exact ⟨ev, rfl⟩

/-- When `classify_resource_sensitivity` does not raise, the
classification step succeeds. -/
theorem stepClassify_ok (cfg : EnricherConfig) (steps : EnrichSteps)
    (ev : NormalizedEvent)
    (hcl : ∀ r2, exceptOk (steps.classifySensitivity r2) = true) :
    ∃ r, stepClassify cfg steps ev = .ok r := by
  unfold stepClassify
  split
  · rcases hc : steps.classifySensitivity ev.resource with u | lvl
    · have hx := hcl ev.resource
      rw [hc] at hx
      exact absurd hx (by simp [exceptOk])
    · exact ⟨{ ev with resource :=
          { ev.resource with sensitivity_level := lvl } }, rfl⟩
  · exact ⟨ev, rfl⟩

/-- When the fallible steps succeed, the enrichment body succeeds and
the geo and metadata aspects of the first two steps survive to the
result. -/
theorem enrichAux_ok_of_steps (cfg : EnricherConfig)
    (steps : EnrichSteps) (ev : NormalizedEvent)
    (hua : ∀ s2, exceptOk (steps.parseUserAgent s2) = true)
    (hcl : ∀ r2, exceptOk (steps.classifySensitivity r2) = true)
    (han : ∀ e, steps.anonymizePii e = .ok e) :
    ∃ e, enrichAux cfg steps ev = .ok e ∧
      e.location = (stepMeta cfg steps (stepGeo cfg steps ev)).location ∧
      e.entity_metadata =
        (stepMeta cfg steps (stepGeo cfg steps ev)).entity_metadata := by
  obtain ⟨r3, h3⟩ :=
    stepDevice_ok cfg steps (stepMeta cfg steps (stepGeo cfg steps ev)) hua
  obtain ⟨hl3, hm3⟩ := stepDevice_fields cfg steps _ r3 h3
  obtain ⟨r4, h4⟩ := stepClassify_ok cfg steps r3 hcl
  obtain ⟨hl4, hm4⟩ := stepClassify_fields cfg steps r3 r4 h4
  refine ⟨r4, ?_, hl4.trans hl3, hm4.trans hm3⟩
  unfold enrichAux
  rw [h3]
  simp only [Bind.bind, Except.bind]
  rw [h4]
  exact han r4

/-- C4 counterexample: with the geo lookup succeeding and the
sensitivity classification raising, `enrich` returns the original
event with NO location set, so a single failing step discards the
other aspects instead of skipping only itself. -/
theorem enrich_aspect_counterexample :
    enrich cfgAll stepsFail ev4 = ev4 ∧
    (enrich cfgAll stepsFail ev4).location = none ∧
    stepsFail.geoipLookup "8.8.8.8" = some loc0 ∧
    optTruthy ev4.source_ip = some "8.8.8.8" ∧
    ev4.location = none ∧
    (stepGeo cfgAll stepsFail ev4).location = some loc0 :=
  ⟨rfl, rfl, rfl, rfl, rfl, rfl⟩

/-- C4 amended: `enrich` never raises; failures inside the geo and
entity-metadata lookups are absorbed per aspect (those helpers catch
internally), but an exception escaping the device, classification or
anonymization step makes `enrich` return the original event unchanged,
discarding every aspect; when no step raises, the geo and metadata
aspects survive to the returned event. -/
theorem enrich_best_effort_amended :
    (∀ (cfg : EnricherConfig) (steps : EnrichSteps)
        (ev : NormalizedEvent) (u : Unit),
      enrichAux cfg steps ev = .error u → enrich cfg steps ev = ev) ∧
    (∀ (cfg : EnricherConfig) (steps : EnrichSteps)
        (ev e : NormalizedEvent),
      enrichAux cfg steps ev = .ok e → enrich cfg steps ev = e) ∧
    (∀ (cfg : EnricherConfig) (steps : EnrichSteps)
        (ev : NormalizedEvent),
      (∀ s2, exceptOk (steps.parseUserAgent s2) = true) →
      (∀ r2, exceptOk (steps.classifySensitivity r2) = true) →
      (∀ e, steps.anonymizePii e = .ok e) →
      (enrich cfg steps ev).location =
        (stepMeta cfg steps (stepGeo cfg steps ev)).location ∧
      (enrich cfg steps ev).entity_metadata =
        (stepMeta cfg steps (stepGeo cfg steps ev)).entity_metadata) := by
  have h2 : ∀ (cfg : EnricherConfig) (steps : EnrichSteps)
      (ev e : NormalizedEvent),
      enrichAux cfg steps ev = .ok e → enrich cfg steps ev = e := by
    intro cfg steps ev e h
    unfold enrich
    rw [h]
  refine ⟨?_, h2, ?_⟩
  · intro cfg steps ev u h
    unfold enrich
    rw [h]
  · intro cfg steps ev hua hcl han
    obtain ⟨e, he, hl, hm⟩ := enrichAux_ok_of_steps cfg steps ev hua hcl han
    rw [h2 cfg steps ev e he]
    exact ⟨hl, hm⟩

/-- C4 amended witness: on the concrete event, the raising
classification step makes `enrich` return the input unchanged, while
with succeeding steps the geo aspect survives to the output. -/
theorem enrich_best_effort_amended_witness :
    enrich cfgAll stepsFail ev4 = ev4 ∧
    (enrich cfgAll stepsOk ev4).location =
      (stepMeta cfgAll stepsOk (stepGeo cfgAll stepsOk ev4)).location :=
  ⟨enrich_best_effort_amended.1 cfgAll stepsFail ev4 () rfl,
   (enrich_best_effort_amended.2.2 cfgAll stepsOk ev4
      (fun _ => rfl) (fun _ => rfl) (fun _ => rfl)).1⟩

/-- Setting a key makes its contents readable at that key. -/
theorem storeGet_storeSet_self (st : Store) (k : String × PartitionKey)
    (v : List StorageRow) : storeGet (storeSet st k v) k = some v := by
  unfold storeGet storeSet
  rw [List.find?_cons_of_pos _ (by simp)]

/-- Filtering out a key leaves lookups of other keys unchanged. -/
theorem find?_filter_ne (k k2 : String × PartitionKey) (h : k2 ≠ k)
    (st : Store) :
    List.find? (fun kv => kv.1 = k2)
        (List.filter (fun kv => kv.1 ≠ k) st) =
      List.find? (fun kv => kv.1 = k2) st := by
  induction st with
  | nil => rfl
  | cons a l ih =>
    by_cases ha : a.1 = k
    · have h2 : ¬ (a.1 = k2) := fun hh => h (hh.symm.trans ha)
      rw [List.filter_cons_of_neg (by simp [ha]),
        List.find?_cons_of_neg _ (by simp [h2])]
      exact ih
    · by_cases hb : a.1 = k2
      · rw [List.filter_cons_of_pos (by simp [ha]),
          List.find?_cons_of_pos _ (by simp [hb]),
          List.find?_cons_of_pos _ (by simp [hb])]
      · rw [List.filter_cons_of_pos (by simp [ha]),
          List.find?_cons_of_neg _ (by simp [hb]),
          List.find?_cons_of_neg _ (by simp [hb])]
        exact ih

/-- Setting a key leaves the contents at other keys unchanged. -/
theorem storeGet_storeSet_ne (st : Store) (k k2 : String × PartitionKey)
    (v : List StorageRow) (h : k2 ≠ k) :
    storeGet (storeSet st k v) k2 = storeGet st k2 := by
  unfold storeGet storeSet
  rw [List.find?_cons_of_neg _ (by simp [Ne.symm h]),
    find?_filter_ne k k2 h st]

/-- A local partition write does not disturb other partitions. -/
theorem storeGet_localWritePartition_ne (tier : String) (st : Store)
    (kv : PartitionKey × List StorageRow) (p : String × PartitionKey)
    (h : (tier, kv.1) ≠ p) :
    storeGet (localWritePartition tier st kv) p = storeGet st p := by
  unfold localWritePartition
  cases hg : storeGet st (tier, kv.1) <;>
    simp [storeGet_storeSet_ne _ _ _ _ (Ne.symm h)]

/-- Folding local partition writes only ever appends to an existing
partition file. -/
theorem localFold_extends (tier : String)
    (groups : List (PartitionKey × List StorageRow)) :
    ∀ (st : Store) (p : String × PartitionKey) (old : List StorageRow),
      storeGet st p = some old →
      ∃ ext, storeGet (groups.foldl (localWritePartition tier) st) p =
        some (old ++ ext) := by
  induction groups with
  | nil => intro st p old h; exact ⟨[], by simpa using h⟩
  | cons g gs ih =>
    intro st p old h
    rw [List.foldl_cons]
    by_cases hp : (tier, g.1) = p
    · have hg : storeGet st (tier, g.1) = some old := by rw [hp]; exact h
      have hstep : storeGet (localWritePartition tier st g) p =
          some (old ++ g.2) := by
        unfold localWritePartition
        rw [hg, ← hp]
        exact storeGet_storeSet_self st (tier, g.1) (old ++ g.2)
      obtain ⟨ext, hx⟩ := ih (localWritePartition tier st g) p
        (old ++ g.2) hstep
      exact ⟨g.2 ++ ext, by rw [hx, List.append_assoc]⟩
    · have hstep := storeGet_localWritePartition_ne tier st g p hp
      obtain ⟨ext, hx⟩ := ih (localWritePartition tier st g) p old
        (by rw [hstep]; exact h)
      exact ⟨ext, hx⟩

/-- C6 counterexample: with a hot partition file already holding
`rowOld`, the S3 storage writer's partition write stores only the new
rows at that key; the previously flushed row is gone instead of
merged. -/
theorem s3_overwrite_counterexample :
    storeGet st6 ("hot", k6) = some [rowOld] ∧
    storeGet (s3WriteEvents st6 [rowNew] "hot") ("hot", k6) =
      some [rowNew] ∧
    rowOld ≠ rowNew :=
  ⟨by decide, by decide, by decide⟩

/-- C6 amended: the local filesystem writer merges (an existing
partition file keeps all its rows, with the new group appended), while
the S3/MinIO writer's `_write_partition` replaces the object at the
partition key with exactly the new group, discarding earlier rows. -/
theorem storage_write_merge_amended :
    (∀ (st : Store) (events : List StorageRow) (tier : String)
        (p : String × PartitionKey) (old : List StorageRow),
      storeGet st p = some old →
      ∃ ext, storeGet (localWriteEvents st events tier) p =
        some (old ++ ext)) ∧
    (∀ (st : Store) (tier : String)
        (kv : PartitionKey × List StorageRow),
      storeGet (s3WritePartition tier st kv) (tier, kv.1) =
        some kv.2) := by
  constructor
  · intro st events tier p old h
    exact localFold_extends tier (writeEvents events) st p old h
  · intro st tier kv
    exact storeGet_storeSet_self st (tier, kv.1) kv.2

/-- C6 amended witness: flushing `rowNew` locally into the partition
that already holds `rowOld` leaves both rows in the file. -/
theorem storage_write_merge_amended_witness :
    storeGet (localWriteEvents st6 [rowNew] "hot") ("hot", k6) =
      some ([rowOld] ++ [rowNew]) := by
  obtain ⟨ext, hx⟩ := storage_write_merge_amended.1 st6 [rowNew] "hot"
    ("hot", k6) [rowOld] (by decide)
  have hc : storeGet (localWriteEvents st6 [rowNew] "hot") ("hot", k6) =
      some [rowOld, rowNew] := by decide
  rw [hc]
  rfl

/-- Splitting at the first dot of a dot-free prefix. -/
theorem splitDots_append (a r : List Char) (ha : '.' ∉ a) :
    splitDots (a ++ '.' :: r) = a :: splitDots r := by
  induction a with
  | nil => rfl
  | cons c a2 ih =>
    have hc : c ≠ '.' := fun hh => ha (hh ▸ List.mem_cons_self c a2)
    have ha2 : '.' ∉ a2 := fun hh => ha (List.mem_cons_of_mem c hh)
    rw [List.cons_append, splitDots, if_neg hc, ih ha2]

/-- A dot-free string splits to itself. -/
theorem splitDots_nodot (d : List Char) (hd : '.' ∉ d) :
    splitDots d = [d] := by
  induction d with
  | nil => rfl
  | cons c d2 ih =>
    have hc : c ≠ '.' := fun hh => hd (hh ▸ List.mem_cons_self c d2)
    have hd2 : '.' ∉ d2 := fun hh => hd (List.mem_cons_of_mem c hh)
    rw [splitDots, if_neg hc, ih hd2]

/-- C7: whenever `source_ip` is a dotted IPv4 `a.b.c.d` and
`source_ip_anonymized` is unset, the validator derives `a.b.c.XXX`
(the final octet masked). -/
theorem anonymize_ip_spec (ip : String) (a b c d : List Char)
    (ha : isIPv4Octet a) (hb : isIPv4Octet b) (hc : isIPv4Octet c)
    (hd : isIPv4Octet d)
    (hip : ip.data = a ++ '.' :: (b ++ '.' :: (c ++ '.' :: d))) :
    anonymizeIpField none (some ip) =
      some (String.mk (a ++ '.' :: (b ++ '.' :: (c ++ ".XXX".data)))) := by
  have hdot : ∀ l : List Char, (∀ ch ∈ l, ch.isDigit = true) →
      '.' ∉ l := by
    intro l hdig hmem
    exact absurd (hdig '.' hmem) (by decide)
  have hsplit : splitDots ip.data = [a, b, c, d] := by
    rw [hip, splitDots_append a _ (hdot a ha.2.1),
      splitDots_append b _ (hdot b hb.2.1),
      splitDots_append c _ (hdot c hc.2.1),
      splitDots_nodot d (hdot d hd.2.1)]
  unfold anonymizeIpField
  simp only [hsplit, List.length_cons, List.length_nil]
  simp [List.getElem_cons_zero, List.getElem_cons_succ, List.append_assoc]

/-- C7 witness: the sample address 192.168.1.50 is anonymized to
192.168.1.XXX. -/
theorem anonymize_ip_spec_witness :
    anonymizeIpField none (some "192.168.1.50") =
      some "192.168.1.XXX" := by
  have h := anonymize_ip_spec "192.168.1.50" "192".data "168".data
    "1".data "50".data (by decide) (by decide) (by decide) (by decide)
    (by decide)
  exact h.trans (by decide)

end ZTBF
